import Mathlib

/-!
Verification of the sellerboard collection & monitoring orchestration engine.

The definitions below are a shallow embedding of the JavaScript source:

* the batch-collection service worker (`handleBatchCollect`, `isProductPage`,
  `sendMessageToTabWithRetry` from the unnamed service-worker module), where
  external effects (tab queries, message sends, script injection, delays) are
  modelled by oracle functions and an explicit event trace;
* the store-scraping queue (`handleStoreScraping` / `processScrapingQueue` /
  `sendProgress` in `background/service-worker.js`), of which we model the
  progress-report trace;
* the `MonitoringService` of `background/margin-analysis-service.js`
  (`startMonitoring`, `stopMonitoring`, `scheduleCheck`, `checkProduct`,
  `handleProductUpdate`, `sendNotification`), where the service state
  (the `monitoringProducts` map, persisted saves, created notifications and
  registered alarms) is threaded explicitly.

Numbers are modelled as `Int`/`Nat` (the JavaScript values involved are
integers in every code path the claims touch), and the notification message
string (Korean text with locale number formatting and a floating point
percentage) is modelled as a list of structured lines, each carrying the data
the source interpolates into the text.
-/

namespace Sellerboard

/-- Definition of substring containment used to model both JavaScript
`String.prototype.includes` and the literal-only regular expressions of
`isProductPage` (every pattern there is a plain substring once escapes are
removed). -/
def containsSubstr (s pat : String) : Bool :=
  (List.range (s.toList.length + 1)).any (fun i => pat.toList.isPrefixOf (s.toList.drop i))

/-! ## Batch collection (unnamed service worker, `handleBatchCollect`) -/

/-- Literal substrings of the regular expressions in `isProductPage`
(`/aliexpress\.com\/item\//` etc., all characters literal). -/
def productPagePatterns : List String :=
  ["aliexpress.com/item/", "taobao.com/item", "1688.com/offer/",
   "tmall.com/item", "detail.tmall.com"]

/-- Model of `isProductPage(url)`: `false` for a missing url, otherwise true
iff some pattern matches (substring test). -/
def isProductPage : Option String → Bool
  | none => false
  | some url => productPagePatterns.any (fun p => containsSubstr url p)

/-- Model of a browser tab as seen by `handleBatchCollect`. -/
structure Tab where
  id : Nat
  url : Option String
  title : String
deriving DecidableEq

/-- Model of one `batchProgress` broadcast: `current`, `total` and
`Math.floor(current / total * 100)`. -/
structure ProgressEvent where
  current : Nat
  total : Nat
  percentage : Nat
deriving DecidableEq

/-- Model of the `results` object of `handleBatchCollect`. -/
structure BatchResults where
  total : Nat
  success : Nat
  failed : Nat
  skipped : Nat
  errors : List (String × String)
deriving DecidableEq

/-- Model of the value passed to `sendResponse` by `handleBatchCollect`:
either `{success: false, error}` or `{success: true, results}`. -/
inductive BatchResponse
  | failure (error : String)
  | completed (results : BatchResults)
deriving DecidableEq

/-- Model of the sequential collection loop of `handleBatchCollect`
(step 4 of the source).  `collect` is the oracle summarising the per-item
external work (tab activation, load wait, settle delay and
`sendMessageToTabWithRetry`): `.ok` means the item's try-block succeeded,
`.error e` that it threw with message `e`.  The progress broadcast is emitted
before each item, with `current = i + 1`. -/
def batchLoop (collect : Tab → Except String Unit) (total : Nat) :
    List Tab → Nat → BatchResults → List ProgressEvent → BatchResults × List ProgressEvent
  | [], _, r, ps => (r, ps)
  | tab :: rest, i, r, ps =>
    let current := i + 1
    let ps1 := ps ++ [⟨current, total, current * 100 / total⟩]
    match collect tab with
    | .ok _ => batchLoop collect total rest (i + 1)
        { r with success := r.success + 1 } ps1
    | .error e => batchLoop collect total rest (i + 1)
        { r with failed := r.failed + 1, errors := r.errors ++ [(tab.title, e)] } ps1

/-- Model of `handleBatchCollect`: filter the window's tabs down to product
pages, answer with an error when none remain, otherwise run the sequential
loop and answer with the results.  Returns the response paired with the trace
of progress broadcasts. -/
def handleBatchCollect (tabs : List Tab) (collect : Tab → Except String Unit) :
    BatchResponse × List ProgressEvent :=
  let productTabs := tabs.filter (fun t => isProductPage t.url)
  if productTabs.length = 0 then
    (.failure "수집 가능한 상품 페이지가 없습니다.", [])
  else
    let out := batchLoop collect productTabs.length productTabs 0
      ⟨productTabs.length, 0, 0, 0, []⟩ []
    (.completed out.1, out.2)

/-! ## Store-scraping queue (`background/service-worker.js`) -/

/-- Model of the `sendProgress` trace of `processScrapingQueue`: each round
recomputes `totalLinks = scrapingQueue.length + completedCount`, shifts one
url, increments `completedCount` and reports `(completedCount, totalLinks)`.
Per-item failures are swallowed and do not affect the trace. -/
def processScrapingQueueProgress : List String → Nat → List (Nat × Nat)
  | [], _ => []
  | _ :: rest, completed =>
    (completed + 1, rest.length + 1 + completed) ::
      processScrapingQueueProgress rest (completed + 1)

/-- Model of the `sendProgress` trace of a whole `handleStoreScraping` run:
an initial `sendProgress(0, links.length)` followed by the queue's per-item
reports. -/
def handleStoreScrapingProgress (links : List String) : List (Nat × Nat) :=
  (0, links.length) :: processScrapingQueueProgress links 0

/-! ## Retry with collector injection (`sendMessageToTabWithRetry`) -/

/-- Observable action of `sendMessageToTabWithRetry`: a send attempt with its
loop index, a `chrome.scripting.executeScript` injection, or a `delay(ms)`. -/
inductive TabEvent
  | send (attemptIdx : Nat)
  | inject
  | wait (ms : Nat)
deriving DecidableEq

/-- Predicate selecting send attempts in a `TabEvent` trace. -/
def TabEvent.isSend : TabEvent → Bool
  | .send _ => true
  | _ => false

/-- Result of `sendMessageToTabWithRetry`: the collector's response, a thrown
error, or falling off the loop (JavaScript returns `undefined` then). -/
inductive RetryResult
  | success (resp : String)
  | thrown (errMsg : String)
  | exhausted
deriving DecidableEq

/-- Error-message fragment tested by the source to recognise a missing
collector. -/
def connectionErrorText : String := "Could not establish connection"

/-- Model of the `for (let i = 0; i < retries; i++)` loop of
`sendMessageToTabWithRetry`.  The loop is driven structurally by
`fuel = retries - i`, so `fuel = 0` is exactly the loop exit.  `attempt i` is
the oracle for the `chrome.tabs.sendMessage` call of iteration `i` (`.error`
carries the thrown message), `injectOk` tells whether script injection
succeeds.  On the first failure whose message contains
`connectionErrorText`, the collector is injected; a successful injection waits
500 ms and retries, a failed one falls through to the ordinary
throw-or-backoff logic (1000 ms). -/
def retryLoop (attempt : Nat → Except String String) (injectOk : Bool) (retries : Nat) :
    Nat → Nat → List TabEvent → RetryResult × List TabEvent
  | 0, _, events => (.exhausted, events)
  | fuel + 1, i, events =>
    let events1 := events ++ [.send i]
    match attempt i with
    | .ok resp => (.success resp, events1)
    | .error msg =>
      if i == 0 && containsSubstr msg connectionErrorText then
        let events2 := events1 ++ [.inject]
        if injectOk then
          retryLoop attempt injectOk retries fuel (i + 1) (events2 ++ [.wait 500])
        else if i == retries - 1 then (.thrown msg, events2)
        else retryLoop attempt injectOk retries fuel (i + 1) (events2 ++ [.wait 1000])
      else if i == retries - 1 then (.thrown msg, events1)
      else retryLoop attempt injectOk retries fuel (i + 1) (events1 ++ [.wait 1000])

/-- Model of `sendMessageToTabWithRetry(tabId, message)` with the default
budget `retries = 3`, returning the result and the trace of observable
actions. -/
def sendMessageToTabWithRetry (attempt : Nat → Except String String) (injectOk : Bool) :
    RetryResult × List TabEvent :=
  retryLoop attempt injectOk 3 3 0 []

/-! ## Monitoring service (`background/margin-analysis-service.js`) -/

/-- Stock status, the closed set used by the source
(`'in_stock' | 'out_of_stock' | 'low_stock'`). -/
inductive Stock
  | in_stock
  | out_of_stock
  | low_stock
deriving DecidableEq

/-- Entry of `history.price`: `{value, timestamp}`. -/
structure PricePoint where
  value : Int
  timestamp : Nat
deriving DecidableEq

/-- Entry of `history.stock`: `{status, timestamp}`. -/
structure StockPoint where
  status : Stock
  timestamp : Nat
deriving DecidableEq

/-- The `history` object of a monitored product. -/
structure History where
  price : List PricePoint
  stock : List StockPoint
deriving DecidableEq

/-- The `monitoring` object of a monitored product. -/
structure Monitoring where
  enabled : Bool
  interval : Int
  priceAlert : Bool
  stockAlert : Bool
  priceThreshold : Int
  lastChecked : Nat
  lastPrice : Int
  lastStock : Stock
deriving DecidableEq

/-- Base product data spread into the monitoring record by `startMonitoring`
(`{...product}`); `stock` is optional in the source and defaulted with
`|| 'in_stock'`. -/
structure Product where
  id : Nat
  name : String
  url : String
  price : Int
  stock : Option Stock
deriving DecidableEq

/-- The `monitoringInfo` record stored in `monitoringProducts`. -/
structure MonitoredProduct where
  base : Product
  monitoring : Monitoring
  history : History
deriving DecidableEq

/-- Options of `startMonitoring` with the source's destructuring defaults. -/
structure MonitorOptions where
  interval : Int := 60
  priceAlert : Bool := true
  stockAlert : Bool := true
  priceThreshold : Int := 0
deriving DecidableEq

/-- The `changes.stockChange` record `{from, to}`. -/
structure StockTransition where
  fromStatus : Stock
  toStatus : Stock
deriving DecidableEq

/-- The `changes` record built by `handleProductUpdate`. -/
structure Changes where
  price : Bool
  stock : Bool
  priceChange : Int
  stockChange : Option StockTransition
deriving DecidableEq

/-- Structured model of one line of the notification message composed by
`sendNotification`: the price line carries the signed delta the source
renders with an explicit sign (the percentage is a pure rendering of the same
delta), the stock line carries the transition. -/
inductive NotifLine
  | priceLine (delta : Int)
  | stockLine (fromStatus toStatus : Stock)
deriving DecidableEq

/-- A created Chrome notification, keyed by the product id embedded in its
name, with its message lines. -/
structure Notification where
  productId : Nat
  lines : List NotifLine
deriving DecidableEq

/-- Model of the `monitoringProducts` JavaScript `Map` as an insertion-ordered
association list with unique keys. -/
abbrev MonMap := List (Nat × MonitoredProduct)

/-- Lookup, modelling `Map.get`. -/
def mget : MonMap → Nat → Option MonitoredProduct
  | [], _ => none
  | e :: rest, k => if e.1 = k then some e.2 else mget rest k

/-- Insertion/replacement, modelling `Map.set` (replaces in place, appends
when the key is new). -/
def mset : MonMap → Nat → MonitoredProduct → MonMap
  | [], k, v => [(k, v)]
  | e :: rest, k, v => if e.1 = k then (k, v) :: rest else e :: mset rest k v

/-- Removal, modelling `Map.delete`. -/
def mdel : MonMap → Nat → MonMap
  | [], _ => []
  | e :: rest, k => if e.1 = k then mdel rest k else e :: mdel rest k

/-- Observable state of the `MonitoringService`: the product map, the number
of `saveMonitoringList` persistence writes, the notifications created and the
registered chrome alarms `(productId, periodInMinutes)`. -/
structure MonState where
  monitoringProducts : MonMap
  saves : Nat
  notifications : List Notification
  alarms : List (Nat × Int)
deriving DecidableEq

/-- The `monitoringInfo` object built by `startMonitoring`: base data spread
in, monitoring options with `lastChecked/lastPrice/lastStock` seeded from the
product, and both histories reset to a single entry holding the current
snapshot. -/
def mkMonitoringInfo (product : Product) (opts : MonitorOptions) (now : Nat) :
    MonitoredProduct :=
  { base := product
    monitoring :=
      { enabled := true
        interval := opts.interval
        priceAlert := opts.priceAlert
        stockAlert := opts.stockAlert
        priceThreshold := opts.priceThreshold
        lastChecked := now
        lastPrice := product.price
        lastStock := product.stock.getD .in_stock }
    history :=
      { price := [⟨product.price, now⟩]
        stock := [⟨product.stock.getD .in_stock, now⟩] } }

/-- Model of `scheduleCheck`: clear any alarm for the product, then create a
new periodic one with the given interval. -/
def scheduleCheck (st : MonState) (productId : Nat) (interval : Int) : MonState :=
  { st with alarms := st.alarms.filter (fun a => a.1 ≠ productId) ++ [(productId, interval)] }

/-- Model of `startMonitoring`: build `monitoringInfo`, store it under the
product id (replacing any existing record), persist the list, and schedule
the periodic check.  The source performs no validation of `options`. -/
def startMonitoring (st : MonState) (product : Product) (opts : MonitorOptions)
    (now : Nat) : MonState :=
  let info := mkMonitoringInfo product opts now
  let st1 := { st with
    monitoringProducts := mset st.monitoringProducts product.id info
    saves := st.saves + 1 }
  scheduleCheck st1 product.id opts.interval

/-- Model of `stopMonitoring`: return untouched when the id is unknown,
otherwise clear the alarm, delete the record and persist the list. -/
def stopMonitoring (st : MonState) (productId : Nat) : MonState :=
  match mget st.monitoringProducts productId with
  | none => st
  | some _ =>
    { st with
      alarms := st.alarms.filter (fun a => a.1 ≠ productId)
      monitoringProducts := mdel st.monitoringProducts productId
      saves := st.saves + 1 }

/-- Data returned by a successful `parseProduct` round-trip, as consumed by
`handleProductUpdate` (`newData.price`, `newData.stock || 'in_stock'`). -/
structure ParsedProduct where
  price : Int
  stock : Option Stock
deriving DecidableEq

/-- Last `n` elements of a list, modelling `Array.prototype.slice(-n)`. -/
def lastN {α : Type} (n : Nat) (xs : List α) : List α :=
  xs.drop (xs.length - n)

/-- Append followed by the source's cap: `push` the entry, then keep only the
most recent 100 when the length exceeds 100 (`slice(-100)`). -/
def cappedAppend {α : Type} (xs : List α) (x : α) : List α :=
  let h := xs ++ [x]
  if h.length > 100 then lastN 100 h else h

/-- Price half of `handleProductUpdate`: when the new price differs from
`monitoring.lastPrice`, record the signed change, append to the capped price
history and update `lastPrice`. -/
def applyPriceUpdate (product : MonitoredProduct) (newData : ParsedProduct)
    (now : Nat) : MonitoredProduct × Changes :=
  if newData.price ≠ product.monitoring.lastPrice then
    ({ product with
        history := { product.history with
          price := cappedAppend product.history.price ⟨newData.price, now⟩ }
        monitoring := { product.monitoring with lastPrice := newData.price } },
     { price := true, stock := false,
       priceChange := newData.price - product.monitoring.lastPrice,
       stockChange := none })
  else
    (product, { price := false, stock := false, priceChange := 0, stockChange := none })

/-- Stock half of `handleProductUpdate`: coalesce the extracted stock with
`|| 'in_stock'`; when it differs from `monitoring.lastStock`, record the
transition, append to the capped stock history and update `lastStock`. -/
def applyStockUpdate (product : MonitoredProduct) (changes : Changes)
    (newData : ParsedProduct) (now : Nat) : MonitoredProduct × Changes :=
  let newStock := newData.stock.getD .in_stock
  if newStock ≠ product.monitoring.lastStock then
    ({ product with
        history := { product.history with
          stock := cappedAppend product.history.stock ⟨newStock, now⟩ }
        monitoring := { product.monitoring with lastStock := newStock } },
     { changes with
        stock := true
        stockChange := some ⟨product.monitoring.lastStock, newStock⟩ })
  else (product, changes)

/-- Pure per-product part of `handleProductUpdate`: the price comparison
followed by the stock comparison, returning the updated record and the
`changes` it accumulated. -/
def applyUpdate (product : MonitoredProduct) (newData : ParsedProduct)
    (now : Nat) : MonitoredProduct × Changes :=
  let pc := applyPriceUpdate product newData now
  applyStockUpdate pc.1 pc.2 newData now

/-- Model of `sendNotification`'s message composition: a price line when the
price changed, price alerts are on and `Math.abs(priceChange)` reaches the
threshold; a stock line when the stock changed and stock alerts are on. -/
def composeMessage (product : MonitoredProduct) (changes : Changes) : List NotifLine :=
  let options := product.monitoring
  let priceLines :=
    if changes.price && options.priceAlert then
      if |changes.priceChange| ≥ options.priceThreshold then
        [NotifLine.priceLine changes.priceChange]
      else []
    else []
  let stockLines :=
    if changes.stock && options.stockAlert then
      match changes.stockChange with
      | some t => [NotifLine.stockLine t.fromStatus t.toStatus]
      | none => []
    else []
  priceLines ++ stockLines

/-- Model of `sendNotification`: compose the message; when it is empty return
without creating anything, otherwise create exactly one Chrome notification
for the product. -/
def sendNotification (product : MonitoredProduct) (changes : Changes) :
    Option Notification :=
  let lines := composeMessage product changes
  if lines = [] then none
  else some { productId := product.base.id, lines := lines }

/-- Model of `handleProductUpdate`: look the product up (returning untouched
when it is gone), apply the price and stock comparisons, and when either
changed store the updated record, persist the list and run
`sendNotification`. -/
def handleProductUpdate (st : MonState) (productId : Nat) (newData : ParsedProduct)
    (now : Nat) : MonState :=
  match mget st.monitoringProducts productId with
  | none => st
  | some product =>
    let pc := applyUpdate product newData now
    if pc.2.price || pc.2.stock then
      let st1 := { st with
        monitoringProducts := mset st.monitoringProducts productId pc.1
        saves := st.saves + 1 }
      match sendNotification pc.1 pc.2 with
      | some n => { st1 with notifications := st1.notifications ++ [n] }
      | none => st1
    else st

/-- Model of `checkProduct`: return untouched when the product was removed or
disabled (stale alarms).  Otherwise the source schedules the parse callback
with `setTimeout`, then immediately updates `monitoring.lastChecked` and
persists; the deferred callback later runs `handleProductUpdate` when the
parse succeeded.  `parsed` is the oracle for that deferred round-trip
(`none` covers a failed tab open, a failed parse or an unsuccessful
response), applied after the synchronous `lastChecked` update to match the
real ordering. -/
def checkProduct (st : MonState) (productId : Nat) (parsed : Option ParsedProduct)
    (nowCheck nowParse : Nat) : MonState :=
  match mget st.monitoringProducts productId with
  | none => st
  | some product =>
    if product.monitoring.enabled = false then st
    else
      let p1 := { product with
        monitoring := { product.monitoring with lastChecked := nowCheck } }
      let st1 := { st with
        monitoringProducts := mset st.monitoringProducts productId p1
        saves := st.saves + 1 }
      match parsed with
      | some d => handleProductUpdate st1 productId d nowParse
      | none => st1

/-! ## Helper lemmas: batch loop -/

/-- The loop counts each processed item in exactly one of the two counters. -/
theorem batchLoop_success_add_failed (collect : Tab → Except String Unit) (total : Nat) :
    ∀ (rest : List Tab) (i : Nat) (r : BatchResults) (ps : List ProgressEvent),
      (batchLoop collect total rest i r ps).1.success
        + (batchLoop collect total rest i r ps).1.failed
        = r.success + r.failed + rest.length := by
  intro rest
  induction rest with
  | nil => intro i r ps; simp [batchLoop]
  | cons tab rest ih =>
    intro i r ps
    simp only [batchLoop]
    cases collect tab with
    | ok _ => rw [ih]; simp; omega
    | error e => rw [ih]; simp; omega

/-- The loop never touches the `total` field. -/
theorem batchLoop_total (collect : Tab → Except String Unit) (total : Nat) :
    ∀ (rest : List Tab) (i : Nat) (r : BatchResults) (ps : List ProgressEvent),
      (batchLoop collect total rest i r ps).1.total = r.total := by
  intro rest
  induction rest with
  | nil => intro i r ps; simp [batchLoop]
  | cons tab rest ih =>
    intro i r ps
    simp only [batchLoop]
    cases collect tab with
    | ok _ => rw [ih]
    | error e => rw [ih]

/-- The progress event of item index `i` (0-based) of a run over `total`
items. -/
def batchEv (total i : Nat) : ProgressEvent :=
  ⟨i + 1, total, (i + 1) * 100 / total⟩

/-- Closed form of the progress trace produced by the loop. -/
theorem batchLoop_progress (collect : Tab → Except String Unit) (total : Nat) :
    ∀ (rest : List Tab) (i : Nat) (r : BatchResults) (ps : List ProgressEvent),
      (batchLoop collect total rest i r ps).2
        = ps ++ (List.range rest.length).map (fun j => batchEv total (i + j)) := by
  intro rest
  induction rest with
  | nil => intro i r ps; simp [batchLoop]
  | cons tab rest ih =>
    intro i r ps
    have hmap : (List.range (rest.length + 1)).map (fun j => batchEv total (i + j))
        = batchEv total i
          :: (List.range rest.length).map (fun j => batchEv total (i + 1 + j)) := by
      rw [List.range_succ_eq_map, List.map_cons, List.map_map]
      refine congrArg₂ _ (by simp [batchEv]) ?_
      refine List.map_congr_left ?_
      intro a _
      simp only [Function.comp_apply, Nat.succ_eq_add_one]
      have : i + (a + 1) = i + 1 + a := by omega
      rw [this]
    simp only [batchLoop, List.length_cons]
    cases collect tab with
    | ok _ => rw [ih]; rw [hmap]; simp [batchEv]
    | error e => rw [ih]; rw [hmap]; simp [batchEv]

/-! ## C1: completed batch runs account for every target exactly once -/

/-- C1.  When `handleBatchCollect` reaches the completed response, the result
counters satisfy `success + failed = total`, and `total` is the number of
tabs surviving the product-page filter: each processed item increments
exactly one of the two counters. -/
theorem batch_completed_counts (tabs : List Tab) (collect : Tab → Except String Unit)
    (r : BatchResults) (events : List ProgressEvent)
    (h : handleBatchCollect tabs collect = (.completed r, events)) :
    r.success + r.failed = r.total
      ∧ r.total = (tabs.filter (fun t => isProductPage t.url)).length := by
  unfold handleBatchCollect at h
  by_cases hz : (tabs.filter (fun t => isProductPage t.url)).length = 0
  · simp only [hz, if_pos rfl] at h
    exact absurd (congrArg Prod.fst h) (by simp)
  · simp only [if_neg hz] at h
    have hr : r = (batchLoop collect (tabs.filter (fun t => isProductPage t.url)).length
        (tabs.filter (fun t => isProductPage t.url)) 0
        ⟨(tabs.filter (fun t => isProductPage t.url)).length, 0, 0, 0, []⟩ []).1 := by
      have := congrArg Prod.fst h
      simp only at this
      cases this
      rfl
    subst hr
    constructor
    · rw [batchLoop_success_add_failed, batchLoop_total]; simp
    · rw [batchLoop_total]

/-- Concrete tab list used by the batch witnesses: a single AliExpress
product page. -/
def wTabs : List Tab := [⟨1, some "https://ko.aliexpress.com/item/100500.html", "item"⟩]

/-- Oracle that succeeds on every item. -/
def wCollect : Tab → Except String Unit := fun _ => .ok ()

/-- Witness for C1 at a concrete one-tab run. -/
theorem batch_completed_counts_witness :
    (1 : Nat) + 0 = 1 ∧ (1 : Nat) = (wTabs.filter (fun t => isProductPage t.url)).length :=
  batch_completed_counts wTabs wCollect ⟨1, 1, 0, 0, []⟩ [⟨1, 1, 100⟩] (by rfl)

/-! ## C7: filtering and the empty-list response -/

/-- Counterexample to C7.  An empty targets sequence does not yield a
completed run with `total = 0`: the source answers with
`{success: false, error}` before any run object is created. -/
theorem batch_empty_not_completed :
    (handleBatchCollect [] wCollect).1 = .failure "수집 가능한 상품 페이지가 없습니다."
      ∧ (handleBatchCollect [] wCollect).1 ≠ .completed ⟨0, 0, 0, 0, []⟩ := by
  constructor
  · rfl
  · intro h
    exact absurd h (by simp [handleBatchCollect])

/-- C7 as amended.  Targets that match no collectible-page pattern are
filtered out before processing and do not count toward `total`; but an empty
(or fully filtered-out) targets sequence yields the error response
`수집 가능한 상품 페이지가 없습니다.` rather than a completed run with
`total = 0`. -/
theorem batch_filter_amended (tabs : List Tab) (collect : Tab → Except String Unit) :
    ((tabs.filter (fun t => isProductPage t.url)) = [] →
      (handleBatchCollect tabs collect).1 = .failure "수집 가능한 상품 페이지가 없습니다.")
    ∧ (∀ r events, handleBatchCollect tabs collect = (.completed r, events) →
        r.total = (tabs.filter (fun t => isProductPage t.url)).length) := by
  constructor
  · intro hnil
    simp [handleBatchCollect, hnil]
  · intro r events h
    exact (batch_completed_counts tabs collect r events h).2

/-- Witness for the amended C7: a tab that matches no pattern is filtered
out and the run answers with the error response. -/
theorem batch_filter_amended_witness :
    (handleBatchCollect [⟨2, some "https://example.com/page", "x"⟩] wCollect).1
      = .failure "수집 가능한 상품 페이지가 없습니다." :=
  (batch_filter_amended [⟨2, some "https://example.com/page", "x"⟩] wCollect).1 (by rfl)

/-! ## C6: progress reporting -/

/-- Closed form of the completed-run progress trace of `handleBatchCollect`,
together with the fact that a completed run has a nonzero total. -/
theorem batch_events_closed (tabs : List Tab) (collect : Tab → Except String Unit)
    (r : BatchResults) (events : List ProgressEvent)
    (h : handleBatchCollect tabs collect = (.completed r, events)) :
    r.total ≠ 0 ∧ events = (List.range r.total).map (batchEv r.total) := by
  have htot := (batch_completed_counts tabs collect r events h).2
  unfold handleBatchCollect at h
  by_cases hz : (tabs.filter (fun t => isProductPage t.url)).length = 0
  · simp only [hz, if_pos rfl] at h
    exact absurd (congrArg Prod.fst h) (by simp)
  · simp only [if_neg hz] at h
    have hev : events = (batchLoop collect (tabs.filter (fun t => isProductPage t.url)).length
        (tabs.filter (fun t => isProductPage t.url)) 0
        ⟨(tabs.filter (fun t => isProductPage t.url)).length, 0, 0, 0, []⟩ []).2 := by
      have := congrArg Prod.snd h
      simp only at this
      exact this.symm
    refine ⟨by rw [htot]; exact hz, ?_⟩
    rw [hev, batchLoop_progress, htot]
    simp

/-- Closed form of the per-item progress reports of `processScrapingQueue`:
`totalLinks` is recomputed each round but stays constant, and `current` runs
from `completed + 1` upward. -/
theorem processScrapingQueueProgress_closed (links : List String) :
    ∀ c, processScrapingQueueProgress links c
      = (List.range links.length).map (fun j => (c + j + 1, c + links.length)) := by
  induction links with
  | nil => intro c; simp [processScrapingQueueProgress]
  | cons l rest ih =>
    intro c
    simp only [processScrapingQueueProgress, List.length_cons, ih (c + 1)]
    rw [List.range_succ_eq_map, List.map_cons, List.map_map]
    refine congrArg₂ _ (by refine congrArg₂ _ (by omega) (by omega)) ?_
    refine List.map_congr_left ?_
    intro a _
    simp only [Function.comp_apply, Nat.succ_eq_add_one]
    refine congrArg₂ _ (by omega) (by omega)

/-- Closed form of the full `handleStoreScraping` progress trace: one initial
report with `current = 0`, then one report per item. -/
theorem storeScrapingProgress_closed (links : List String) :
    handleStoreScrapingProgress links
      = (0, links.length) :: (List.range links.length).map (fun j => (j + 1, links.length)) := by
  unfold handleStoreScrapingProgress
  rw [processScrapingQueueProgress_closed]
  simp

/-- Counterexample to C6.  A completed store-scraping run over 1 target
invokes the progress observer 2 times (an initial `current = 0` report plus
the per-item report), not exactly 1 time. -/
theorem store_scraping_progress_count_cex :
    (handleStoreScrapingProgress ["https://a.example/p1"]).length = 2
      ∧ (2 : Nat) ≠ 1 := by
  exact ⟨rfl, by decide⟩

/-- C6 as amended.  In `handleBatchCollect` the progress observer is invoked
exactly `total` times with strictly increasing `current` ending at
`current = total`; the store-scraping flow additionally emits one initial
report with `current = 0` before the per-item reports, so its observer is
invoked `total + 1` times, still strictly increasing and ending at
`current = total`. -/
theorem progress_reporting_amended :
    (∀ (tabs : List Tab) (collect : Tab → Except String Unit) (r : BatchResults)
        (events : List ProgressEvent),
      handleBatchCollect tabs collect = (.completed r, events) →
        events.length = r.total
        ∧ List.Chain' (fun a b => a.current < b.current) events
        ∧ events.getLast? = some ⟨r.total, r.total, 100⟩)
    ∧ (∀ links : List String,
        (handleStoreScrapingProgress links).length = links.length + 1
        ∧ List.Chain' (fun a b => a.1 < b.1) (handleStoreScrapingProgress links)
        ∧ (handleStoreScrapingProgress links).getLast?
            = some (links.length, links.length)) := by
  constructor
  · intro tabs collect r events h
    obtain ⟨hne, hev⟩ := batch_events_closed tabs collect r events h
    obtain ⟨m, hm⟩ : ∃ m, r.total = m + 1 := ⟨r.total - 1, by omega⟩
    refine ⟨by rw [hev]; simp, ?_, ?_⟩
    · rw [hev]
      refine (List.chain'_map (batchEv r.total)).mpr ?_
      refine List.Pairwise.chain' ?_
      refine (List.pairwise_lt_range r.total).imp ?_
      intro a b hab
      simpa [batchEv] using hab
    · rw [hev, hm, List.range_succ, List.map_append]
      simp only [List.map_cons, List.map_nil]
      rw [List.getLast?_concat]
      have h100 : (m + 1) * 100 / (m + 1) = 100 :=
        Nat.mul_div_cancel_left 100 (Nat.succ_pos m)
      simp [batchEv, h100]
  · intro links
    rw [storeScrapingProgress_closed]
    refine ⟨by simp, ?_, ?_⟩
    · have hfst : ((0, links.length)
          :: (List.range links.length).map (fun j => (j + 1, links.length))).map Prod.fst
          = List.range (links.length + 1) := by
        rw [List.range_succ_eq_map]
        simp [List.map_map, Function.comp]
      have hch : List.Chain' (· < ·) (((0, links.length)
          :: (List.range links.length).map (fun j => (j + 1, links.length))).map Prod.fst) := by
        rw [hfst]
        exact (List.pairwise_lt_range _).chain'
      exact (List.chain'_map Prod.fst).mp hch
    · cases hn : links.length with
      | zero => simp
      | succ m =>
        rw [List.range_succ, List.map_append]
        simp only [List.map_cons, List.map_nil]
        have : ((0, m + 1) : Nat × Nat)
            :: ((List.range m).map (fun j => (j + 1, m + 1)) ++ [(m + 1, m + 1)])
            = (((0, m + 1) : Nat × Nat) :: (List.range m).map (fun j => (j + 1, m + 1)))
              ++ [(m + 1, m + 1)] := by simp
        rw [this, List.getLast?_concat]

/-- Witness for the amended C6 at the concrete one-tab batch run. -/
theorem progress_reporting_amended_witness :
    ([⟨1, 1, 100⟩] : List ProgressEvent).length = 1
      ∧ List.Chain' (fun a b => a.current < b.current)
          ([⟨1, 1, 100⟩] : List ProgressEvent)
      ∧ ([⟨1, 1, 100⟩] : List ProgressEvent).getLast? = some ⟨1, 1, 100⟩ :=
  progress_reporting_amended.1 wTabs wCollect ⟨1, 1, 0, 0, []⟩ [⟨1, 1, 100⟩] (by rfl)

/-! ## C5: retry with one-shot collector injection -/

/-- C5.  When the collector does not respond to the first send (a connection
error), `sendMessageToTabWithRetry` injects the collector exactly once,
immediately after that first failed send, then retries; the trace never holds
more than 3 send attempts, every backoff between attempts is one of the fixed
delays (500 ms after the injection, 1000 ms otherwise), and an error is
rethrown only once all 3 attempts are spent. -/
theorem send_retry_remediation
    (attempt : Nat → Except String String) (injectOk : Bool) (m : String)
    (h0 : attempt 0 = .error m)
    (hconn : containsSubstr m connectionErrorText = true) :
    (sendMessageToTabWithRetry attempt injectOk).2.count TabEvent.inject = 1
    ∧ (sendMessageToTabWithRetry attempt injectOk).2.take 2
        = [TabEvent.send 0, TabEvent.inject]
    ∧ ((sendMessageToTabWithRetry attempt injectOk).2.filter TabEvent.isSend).length ≤ 3
    ∧ (∀ e, (sendMessageToTabWithRetry attempt injectOk).1 = .thrown e →
        ((sendMessageToTabWithRetry attempt injectOk).2.filter TabEvent.isSend).length = 3)
    ∧ (∀ w, TabEvent.wait w ∈ (sendMessageToTabWithRetry attempt injectOk).2 →
        w = 500 ∨ w = 1000)
    ∧ TabEvent.send 1 ∈ (sendMessageToTabWithRetry attempt injectOk).2 := by
  cases injectOk with
  | true =>
    rcases h1 : attempt 1 with m1 | r1
    · rcases h2 : attempt 2 with m2 | r2
      · have heq : sendMessageToTabWithRetry attempt true
            = (.thrown m2, [.send 0, .inject, .wait 500, .send 1, .wait 1000, .send 2]) := by
          simp [sendMessageToTabWithRetry, retryLoop, h0, h1, h2, hconn]
        simp only [heq]
        refine ⟨by decide, by decide, by decide, fun e he => by decide, ?_, by decide⟩
        intro w hw; simp at hw; tauto
      · have heq : sendMessageToTabWithRetry attempt true
            = (.success r2, [.send 0, .inject, .wait 500, .send 1, .wait 1000, .send 2]) := by
          simp [sendMessageToTabWithRetry, retryLoop, h0, h1, h2, hconn]
        simp only [heq]
        refine ⟨by decide, by decide, by decide,
          fun e he => absurd he (by simp), ?_, by decide⟩
        intro w hw; simp at hw; tauto
    · have heq : sendMessageToTabWithRetry attempt true
          = (.success r1, [.send 0, .inject, .wait 500, .send 1]) := by
        simp [sendMessageToTabWithRetry, retryLoop, h0, h1, hconn]
      simp only [heq]
      refine ⟨by decide, by decide, by decide,
        fun e he => absurd he (by simp), ?_, by decide⟩
      intro w hw; simp at hw; tauto
  | false =>
    rcases h1 : attempt 1 with m1 | r1
    · rcases h2 : attempt 2 with m2 | r2
      · have heq : sendMessageToTabWithRetry attempt false
            = (.thrown m2, [.send 0, .inject, .wait 1000, .send 1, .wait 1000, .send 2]) := by
          simp [sendMessageToTabWithRetry, retryLoop, h0, h1, h2, hconn]
        simp only [heq]
        refine ⟨by decide, by decide, by decide, fun e he => by decide, ?_, by decide⟩
        intro w hw; simp at hw; tauto
      · have heq : sendMessageToTabWithRetry attempt false
            = (.success r2, [.send 0, .inject, .wait 1000, .send 1, .wait 1000, .send 2]) := by
          simp [sendMessageToTabWithRetry, retryLoop, h0, h1, h2, hconn]
        simp only [heq]
        refine ⟨by decide, by decide, by decide,
          fun e he => absurd he (by simp), ?_, by decide⟩
        intro w hw; simp at hw; tauto
    · have heq : sendMessageToTabWithRetry attempt false
          = (.success r1, [.send 0, .inject, .wait 1000, .send 1]) := by
        simp [sendMessageToTabWithRetry, retryLoop, h0, h1, hconn]
      simp only [heq]
      refine ⟨by decide, by decide, by decide,
        fun e he => absurd he (by simp), ?_, by decide⟩
      intro w hw; simp at hw; tauto

/-- Concrete attempt oracle for the C5 witness: the first send fails with a
connection error, later sends succeed. -/
def wAttempt : Nat → Except String String :=
  fun i => if i = 0
    then .error "Could not establish connection. Receiving end does not exist."
    else .ok "done"

/-- Witness for C5 at the concrete oracle. -/
theorem send_retry_remediation_witness :
    (sendMessageToTabWithRetry wAttempt true).2.count TabEvent.inject = 1
    ∧ (sendMessageToTabWithRetry wAttempt true).2.take 2
        = [TabEvent.send 0, TabEvent.inject]
    ∧ ((sendMessageToTabWithRetry wAttempt true).2.filter TabEvent.isSend).length ≤ 3
    ∧ (∀ e, (sendMessageToTabWithRetry wAttempt true).1 = .thrown e →
        ((sendMessageToTabWithRetry wAttempt true).2.filter TabEvent.isSend).length = 3)
    ∧ (∀ w, TabEvent.wait w ∈ (sendMessageToTabWithRetry wAttempt true).2 →
        w = 500 ∨ w = 1000)
    ∧ TabEvent.send 1 ∈ (sendMessageToTabWithRetry wAttempt true).2 :=
  send_retry_remediation wAttempt true
    "Could not establish connection. Receiving end does not exist." (by rfl) (by rfl)

/-! ## Helper lemmas: monitoring map and capped histories -/

/-- Looking up the key just set returns the stored value. -/
theorem mget_mset_self (m : MonMap) (k : Nat) (v : MonitoredProduct) :
    mget (mset m k v) k = some v := by
  induction m with
  | nil => simp [mget, mset]
  | cons e rest ih =>
    by_cases he : e.1 = k
    · simp [mget, mset, he]
    · simp [mget, mset, he, ih]

/-- Looking up the key just deleted returns nothing. -/
theorem mget_mdel_self (m : MonMap) (k : Nat) :
    mget (mdel m k) k = none := by
  induction m with
  | nil => simp [mget, mdel]
  | cons e rest ih =>
    by_cases he : e.1 = k
    · simp [mget, mdel, he, ih]
    · simp [mget, mdel, he, ih]

/-- The capped append never leaves more than 100 entries. -/
theorem cappedAppend_length_le {α : Type} (xs : List α) (x : α) :
    (cappedAppend xs x).length ≤ 100 := by
  simp only [cappedAppend, lastN]
  split_ifs with h
  · simp only [List.length_drop]
    omega
  · simp only [List.length_append, List.length_cons, List.length_nil] at h ⊢
    omega

/-- Below capacity the capped append is a plain append. -/
theorem cappedAppend_of_lt {α : Type} (xs : List α) (x : α) (h : xs.length < 100) :
    cappedAppend xs x = xs ++ [x] := by
  simp only [cappedAppend, lastN]
  rw [if_neg]
  simp only [List.length_append, List.length_cons, List.length_nil]
  omega

/-- At capacity the capped append evicts exactly the oldest entry (FIFO). -/
theorem cappedAppend_at_cap {α : Type} (xs : List α) (x : α) (h : xs.length = 100) :
    cappedAppend xs x = xs.tail ++ [x] := by
  simp only [cappedAppend, lastN]
  rw [if_pos (by simp [h])]
  rw [List.drop_append_eq_append_drop]
  simp [h, List.drop_one]

/-- The capped append always keeps the new entry as the most recent one. -/
theorem cappedAppend_getLast (xs : List PricePoint) (x : PricePoint) :
    (cappedAppend xs x).getLast? = some x := by
  simp only [cappedAppend, lastN]
  split_ifs with h
  · rw [List.drop_append_eq_append_drop]
    have hk : (xs ++ [x]).length - 100 - xs.length = 0 := by
      simp only [List.length_append, List.length_cons, List.length_nil] at h ⊢
      omega
    rw [hk]
    simp [List.getLast?_concat]
  · exact List.getLast?_concat _

/-- The capped append preserves a nondecreasing key order when the new entry
dominates the existing ones. -/
theorem cappedAppend_map_pairwise {α : Type} (key : α → Nat) (xs : List α) (x : α)
    (hs : (xs.map key).Pairwise (fun a b => a ≤ b))
    (hub : ∀ e ∈ xs, key e ≤ key x) :
    ((cappedAppend xs x).map key).Pairwise (fun a b => a ≤ b) := by
  have happ : ((xs ++ [x]).map key).Pairwise (fun a b => a ≤ b) := by
    rw [List.map_append, List.pairwise_append]
    refine ⟨hs, by simp, ?_⟩
    intro a ha b hb
    simp only [List.map_cons, List.map_nil, List.mem_singleton] at hb
    subst hb
    obtain ⟨e, he, rfl⟩ := List.mem_map.mp ha
    exact hub e he
  simp only [cappedAppend, lastN]
  split_ifs with h
  · rw [List.map_drop]
    exact happ.drop
  · exact happ

/-! ## Helper lemmas: the pure update `applyUpdate` -/

/-- Fields of `applyUpdate` that the price branch leaves intact and the stock
branch leaves intact: the base product and the alert options never change. -/
theorem applyUpdate_preserved (p : MonitoredProduct) (d : ParsedProduct) (now : Nat) :
    (applyUpdate p d now).1.base = p.base
    ∧ (applyUpdate p d now).1.monitoring.priceAlert = p.monitoring.priceAlert
    ∧ (applyUpdate p d now).1.monitoring.stockAlert = p.monitoring.stockAlert
    ∧ (applyUpdate p d now).1.monitoring.priceThreshold = p.monitoring.priceThreshold := by
  by_cases hp : d.price = p.monitoring.lastPrice <;>
    by_cases hs : d.stock.getD .in_stock = p.monitoring.lastStock <;>
    simp_all [applyUpdate, applyPriceUpdate, applyStockUpdate]

/-- Behaviour of `applyUpdate` when the extracted price differs from
`lastPrice`. -/
theorem applyUpdate_price_changed (p : MonitoredProduct) (d : ParsedProduct) (now : Nat)
    (hdiff : d.price ≠ p.monitoring.lastPrice) :
    (applyUpdate p d now).2.price = true
    ∧ (applyUpdate p d now).2.priceChange = d.price - p.monitoring.lastPrice
    ∧ (applyUpdate p d now).1.history.price = cappedAppend p.history.price ⟨d.price, now⟩
    ∧ (applyUpdate p d now).1.monitoring.lastPrice = d.price := by
  by_cases hs : d.stock.getD .in_stock = p.monitoring.lastStock <;>
    simp_all [applyUpdate, applyPriceUpdate, applyStockUpdate]

/-- Behaviour of `applyUpdate` when the extracted price equals `lastPrice`. -/
theorem applyUpdate_price_same (p : MonitoredProduct) (d : ParsedProduct) (now : Nat)
    (hsame : d.price = p.monitoring.lastPrice) :
    (applyUpdate p d now).2.price = false
    ∧ (applyUpdate p d now).1.history.price = p.history.price := by
  by_cases hs : d.stock.getD .in_stock = p.monitoring.lastStock <;>
    simp_all [applyUpdate, applyPriceUpdate, applyStockUpdate]

/-- Behaviour of `applyUpdate` when the coalesced stock differs from
`lastStock`. -/
theorem applyUpdate_stock_changed (p : MonitoredProduct) (d : ParsedProduct) (now : Nat)
    (hdiff : d.stock.getD .in_stock ≠ p.monitoring.lastStock) :
    (applyUpdate p d now).2.stock = true
    ∧ (applyUpdate p d now).2.stockChange
        = some ⟨p.monitoring.lastStock, d.stock.getD .in_stock⟩
    ∧ (applyUpdate p d now).1.history.stock
        = cappedAppend p.history.stock ⟨d.stock.getD .in_stock, now⟩
    ∧ (applyUpdate p d now).1.monitoring.lastStock = d.stock.getD .in_stock := by
  by_cases hp : d.price = p.monitoring.lastPrice <;>
    simp_all [applyUpdate, applyPriceUpdate, applyStockUpdate]

/-- Behaviour of `applyUpdate` when the coalesced stock equals `lastStock`. -/
theorem applyUpdate_stock_same (p : MonitoredProduct) (d : ParsedProduct) (now : Nat)
    (hsame : d.stock.getD .in_stock = p.monitoring.lastStock) :
    (applyUpdate p d now).2.stock = false
    ∧ (applyUpdate p d now).1.history.stock = p.history.stock := by
  by_cases hp : d.price = p.monitoring.lastPrice <;>
    simp_all [applyUpdate, applyPriceUpdate, applyStockUpdate]

/-- With no change at all, `applyUpdate` returns the product untouched with
an all-false `changes` record. -/
theorem applyUpdate_no_change (p : MonitoredProduct) (d : ParsedProduct) (now : Nat)
    (hprice : d.price = p.monitoring.lastPrice)
    (hstock : d.stock.getD .in_stock = p.monitoring.lastStock) :
    applyUpdate p d now = (p, ⟨false, false, 0, none⟩) := by
  simp [applyUpdate, applyPriceUpdate, applyStockUpdate, hprice, hstock]

/-- The record `handleProductUpdate` leaves under the product id is exactly
the result of the pure update. -/
theorem mget_handleProductUpdate (st : MonState) (id : Nat) (d : ParsedProduct)
    (now : Nat) (p : MonitoredProduct)
    (hp : mget st.monitoringProducts id = some p) :
    mget (handleProductUpdate st id d now).monitoringProducts id
      = some (applyUpdate p d now).1 := by
  unfold handleProductUpdate
  rw [hp]
  simp only
  cases hch : ((applyUpdate p d now).2.price || (applyUpdate p d now).2.stock) with
  | true =>
    simp only [hch, if_true]
    cases sendNotification (applyUpdate p d now).1 (applyUpdate p d now).2 with
    | some n => simp [mget_mset_self]
    | none => simp [mget_mset_self]
  | false =>
    simp only [hch, Bool.false_eq_true, if_false]
    rw [hp]
    have hpr : (applyUpdate p d now).2.price = false := by
      cases h : (applyUpdate p d now).2.price
      · rfl
      · rw [h] at hch; simp at hch
    have hst : (applyUpdate p d now).2.stock = false := by
      cases h : (applyUpdate p d now).2.stock
      · rfl
      · rw [h] at hch; simp at hch
    by_cases hpc : d.price = p.monitoring.lastPrice
    · by_cases hsc : d.stock.getD .in_stock = p.monitoring.lastStock
      · rw [applyUpdate_no_change p d now hpc hsc]
      · exact absurd (applyUpdate_stock_changed p d now hsc).1 (by rw [hst]; simp)
    · exact absurd (applyUpdate_price_changed p d now hpc).1 (by rw [hpr]; simp)

/-! ## Concrete monitoring fixtures for the witnesses -/

/-- Concrete monitored product fixture. -/
def wProd : Product := ⟨7, "widget", "https://item.taobao.com/item?id=1", 10000, some .in_stock⟩

/-- Concrete options fixture: 60-minute interval, both alerts, threshold 500. -/
def wOpts : MonitorOptions := ⟨60, true, true, 500⟩

/-- Fixture record as stored by `startMonitoring` at time 0. -/
def wMon : MonitoredProduct := mkMonitoringInfo wProd wOpts 0

/-- Fixture service state holding the single monitored product. -/
def wSt : MonState := ⟨[(7, wMon)], 0, [], [(7, 60)]⟩

/-! ## C3: stale timers after `stopMonitoring` are no-ops -/

/-- C3.  After `stopMonitoring` completes for a product id, a (stale) timer
firing for that id leaves the whole service state untouched: `checkProduct`
returns before touching histories, last-known values, `lastChecked`, the
persistence counter, notifications or alarms. -/
theorem stale_timer_noop (st : MonState) (productId : Nat)
    (parsed : Option ParsedProduct) (nowCheck nowParse : Nat) :
    checkProduct (stopMonitoring st productId) productId parsed nowCheck nowParse
      = stopMonitoring st productId := by
  have hnone : mget (stopMonitoring st productId).monitoringProducts productId = none := by
    unfold stopMonitoring
    cases h : mget st.monitoringProducts productId with
    | none => simp only [h]
    | some p => simp only [h]; exact mget_mdel_self _ _
  unfold checkProduct
  rw [hnone]

/-! ## C8: a check with no change is a complete no-op -/

/-- C8.  A check whose extracted price equals `lastPrice` and whose coalesced
stock equals `lastStock` appends nothing to either history, leaves the
last-known values untouched, performs no persistence write and emits no
notification: the whole state is unchanged. -/
theorem no_change_noop (st : MonState) (id : Nat) (d : ParsedProduct) (now : Nat)
    (p : MonitoredProduct)
    (hp : mget st.monitoringProducts id = some p)
    (hprice : d.price = p.monitoring.lastPrice)
    (hstock : d.stock.getD .in_stock = p.monitoring.lastStock) :
    handleProductUpdate st id d now = st := by
  unfold handleProductUpdate
  rw [hp]
  simp [applyUpdate_no_change p d now hprice hstock]

/-- Witness for C8 at the concrete fixture (price and stock unchanged). -/
theorem no_change_noop_witness :
    handleProductUpdate wSt 7 ⟨10000, some .in_stock⟩ 10 = wSt :=
  no_change_noop wSt 7 ⟨10000, some .in_stock⟩ 10 wMon (by rfl) (by rfl) (by rfl)

/-! ## C9: `startMonitoring` performs no interval validation -/

/-- Concrete product for the C9 counterexample. -/
def w9prod : Product := ⟨7, "widget", "https://item.taobao.com/item?id=1", 1000, none⟩

/-- Concrete options with a non-positive (zero) interval. -/
def w9opts : MonitorOptions := ⟨0, true, true, 0⟩

/-- Counterexample to C9.  Calling `startMonitoring` with interval `0` is not
rejected before state is touched: the monitoring record is created and
stored, the list is persisted (one save), and an alarm with the non-positive
interval is registered. -/
theorem start_monitoring_zero_interval_cex :
    mget ((startMonitoring ⟨[], 0, [], []⟩ w9prod w9opts 5).monitoringProducts) 7
        = some (mkMonitoringInfo w9prod w9opts 5)
      ∧ (startMonitoring ⟨[], 0, [], []⟩ w9prod w9opts 5).saves = 1
      ∧ (startMonitoring ⟨[], 0, [], []⟩ w9prod w9opts 5).alarms = [(7, 0)] :=
  ⟨rfl, rfl, rfl⟩

/-- C9 as amended.  `startMonitoring` performs no validation of the interval:
even for a non-positive interval the call creates and stores the monitoring
record, persists the list, and registers an alarm carrying that interval. -/
theorem start_monitoring_no_validation (st : MonState) (product : Product)
    (opts : MonitorOptions) (now : Nat) (_hnp : opts.interval ≤ 0) :
    mget (startMonitoring st product opts now).monitoringProducts product.id
        = some (mkMonitoringInfo product opts now)
      ∧ (startMonitoring st product opts now).saves = st.saves + 1
      ∧ (product.id, opts.interval) ∈ (startMonitoring st product opts now).alarms := by
  unfold startMonitoring scheduleCheck
  refine ⟨?_, rfl, ?_⟩
  · simp [mget_mset_self]
  · simp

/-- Witness for the amended C9 at the concrete zero-interval call. -/
theorem start_monitoring_no_validation_witness :
    mget ((startMonitoring ⟨[], 0, [], []⟩ w9prod w9opts 5).monitoringProducts) 7
        = some (mkMonitoringInfo w9prod w9opts 5)
      ∧ (startMonitoring ⟨[], 0, [], []⟩ w9prod w9opts 5).saves = 0 + 1
      ∧ ((7 : Nat), (0 : Int)) ∈ (startMonitoring ⟨[], 0, [], []⟩ w9prod w9opts 5).alarms :=
  start_monitoring_no_validation ⟨[], 0, [], []⟩ w9prod w9opts 5 (by decide)

/-! ## C10: restarting monitoring silently resets the record -/

/-- C10.  Calling `startMonitoring` for an id that is already monitored
replaces the record: both histories are reset to a single entry holding the
current snapshot and the last-known values are re-seeded from the product,
discarding everything previously accumulated. -/
theorem restart_monitoring_resets_history (st : MonState) (product : Product)
    (opts : MonitorOptions) (now : Nat) (old : MonitoredProduct)
    (_hold : mget st.monitoringProducts product.id = some old) :
    ∀ r, mget (startMonitoring st product opts now).monitoringProducts product.id = some r →
      r.history.price = [⟨product.price, now⟩]
      ∧ r.history.stock = [⟨product.stock.getD .in_stock, now⟩]
      ∧ r.monitoring.lastPrice = product.price
      ∧ r.monitoring.lastStock = product.stock.getD .in_stock := by
  intro r hr
  have hmk : mget (startMonitoring st product opts now).monitoringProducts product.id
      = some (mkMonitoringInfo product opts now) := by
    unfold startMonitoring scheduleCheck
    simp [mget_mset_self]
  rw [hmk] at hr
  injection hr with hr
  subst hr
  exact ⟨rfl, rfl, rfl, rfl⟩

/-- Witness for C10: restarting the fixture product at time 99 resets its
histories, discarding the record already present in `wSt`. -/
theorem restart_monitoring_resets_history_witness :
    (mkMonitoringInfo wProd wOpts 99).history.price = [⟨10000, 99⟩]
      ∧ (mkMonitoringInfo wProd wOpts 99).history.stock = [⟨.in_stock, 99⟩]
      ∧ (mkMonitoringInfo wProd wOpts 99).monitoring.lastPrice = 10000
      ∧ (mkMonitoringInfo wProd wOpts 99).monitoring.lastStock = .in_stock :=
  restart_monitoring_resets_history wSt wProd wOpts 99 wMon (by rfl)
    (mkMonitoringInfo wProd wOpts 99) (by rfl)

/-! ## C2: histories are capped at 100, time-ordered, FIFO-evicted -/

/-- C2.  Across one check, both histories stay within the 100-entry cap,
entries are appended in time order (a nondecreasing timestamp sequence stays
nondecreasing when the check's timestamp dominates), and at capacity the
oldest entry is evicted first: below the cap the append is plain, at the cap
it drops exactly the head. -/
theorem history_capped_fifo_ordered
    (st : MonState) (id : Nat) (d : ParsedProduct) (now : Nat)
    (p p2 : MonitoredProduct)
    (hp : mget st.monitoringProducts id = some p)
    (hp2 : mget (handleProductUpdate st id d now).monitoringProducts id = some p2) :
    (p.history.price.length ≤ 100 → p2.history.price.length ≤ 100)
    ∧ (p.history.stock.length ≤ 100 → p2.history.stock.length ≤ 100)
    ∧ (d.price ≠ p.monitoring.lastPrice → p.history.price.length < 100 →
        p2.history.price = p.history.price ++ [⟨d.price, now⟩])
    ∧ (d.price ≠ p.monitoring.lastPrice → p.history.price.length = 100 →
        p2.history.price = p.history.price.tail ++ [⟨d.price, now⟩])
    ∧ (d.stock.getD .in_stock ≠ p.monitoring.lastStock → p.history.stock.length = 100 →
        p2.history.stock = p.history.stock.tail ++ [⟨d.stock.getD .in_stock, now⟩])
    ∧ ((p.history.price.map PricePoint.timestamp).Pairwise (fun a b => a ≤ b) →
        (∀ e ∈ p.history.price, e.timestamp ≤ now) →
        (p2.history.price.map PricePoint.timestamp).Pairwise (fun a b => a ≤ b))
    ∧ ((p.history.stock.map StockPoint.timestamp).Pairwise (fun a b => a ≤ b) →
        (∀ e ∈ p.history.stock, e.timestamp ≤ now) →
        (p2.history.stock.map StockPoint.timestamp).Pairwise (fun a b => a ≤ b)) := by
  have hkey := mget_handleProductUpdate st id d now p hp
  rw [hp2] at hkey
  injection hkey with hkey
  subst hkey
  refine ⟨?_, ?_, ?_, ?_, ?_, ?_, ?_⟩
  · intro hlen
    by_cases hpc : d.price = p.monitoring.lastPrice
    · rw [(applyUpdate_price_same p d now hpc).2]; exact hlen
    · rw [(applyUpdate_price_changed p d now hpc).2.2.1]
      exact cappedAppend_length_le _ _
  · intro hlen
    by_cases hsc : d.stock.getD .in_stock = p.monitoring.lastStock
    · rw [(applyUpdate_stock_same p d now hsc).2]; exact hlen
    · rw [(applyUpdate_stock_changed p d now hsc).2.2.1]
      exact cappedAppend_length_le _ _
  · intro hdiff hlt
    rw [(applyUpdate_price_changed p d now hdiff).2.2.1]
    exact cappedAppend_of_lt _ _ hlt
  · intro hdiff hcap
    rw [(applyUpdate_price_changed p d now hdiff).2.2.1]
    exact cappedAppend_at_cap _ _ hcap
  · intro hdiff hcap
    rw [(applyUpdate_stock_changed p d now hdiff).2.2.1]
    exact cappedAppend_at_cap _ _ hcap
  · intro hsort hub
    by_cases hpc : d.price = p.monitoring.lastPrice
    · rw [(applyUpdate_price_same p d now hpc).2]; exact hsort
    · rw [(applyUpdate_price_changed p d now hpc).2.2.1]
      exact cappedAppend_map_pairwise PricePoint.timestamp _ _ hsort hub
  · intro hsort hub
    by_cases hsc : d.stock.getD .in_stock = p.monitoring.lastStock
    · rw [(applyUpdate_stock_same p d now hsc).2]; exact hsort
    · rw [(applyUpdate_stock_changed p d now hsc).2.2.1]
      exact cappedAppend_map_pairwise StockPoint.timestamp _ _ hsort hub

/-- Witness for C2 at the concrete fixture: the below-cap append case. -/
theorem history_capped_fifo_ordered_witness :
    (applyUpdate wMon ⟨10450, some .in_stock⟩ 10).1.history.price
      = wMon.history.price ++ [⟨10450, 10⟩] :=
  (history_capped_fifo_ordered wSt 7 ⟨10450, some .in_stock⟩ 10 wMon
      (applyUpdate wMon ⟨10450, some .in_stock⟩ 10).1
      (by rfl) (by rfl)).2.2.1 (by decide) (by decide)

/-! ## C4: the price-delta threshold gates the notification, not the record -/

/-- When something changed, the notifications of the updated state are the old
ones plus whatever `sendNotification` produced for the updated record. -/
theorem handleProductUpdate_notifications (st : MonState) (id : Nat) (d : ParsedProduct)
    (now : Nat) (p : MonitoredProduct)
    (hp : mget st.monitoringProducts id = some p)
    (hch : ((applyUpdate p d now).2.price || (applyUpdate p d now).2.stock) = true) :
    (handleProductUpdate st id d now).notifications
      = st.notifications
        ++ (match sendNotification (applyUpdate p d now).1 (applyUpdate p d now).2 with
            | some n => [n]
            | none => []) := by
  unfold handleProductUpdate
  rw [hp]
  simp only [hch, if_true]
  cases hsn : sendNotification (applyUpdate p d now).1 (applyUpdate p d now).2 with
  | some n => simp [hsn]
  | none => simp [hsn]

/-- C4.  For a check on a product with price alerts enabled whose extracted
price differs from `lastPrice`: when the absolute delta reaches the
threshold, exactly one notification is created and its message contains the
signed delta; when the delta stays below the threshold and the stock did not
change (or stock alerts are off), no notification is created, yet the price
history still receives the new entry as its most recent element. -/
theorem price_alert_threshold
    (st : MonState) (id : Nat) (d : ParsedProduct) (now : Nat) (p : MonitoredProduct)
    (hp : mget st.monitoringProducts id = some p)
    (halert : p.monitoring.priceAlert = true)
    (hdiff : d.price ≠ p.monitoring.lastPrice) :
    (p.monitoring.priceThreshold ≤ |d.price - p.monitoring.lastPrice| →
      (handleProductUpdate st id d now).notifications.length
          = st.notifications.length + 1
      ∧ (∀ n, (handleProductUpdate st id d now).notifications.getLast? = some n →
          NotifLine.priceLine (d.price - p.monitoring.lastPrice) ∈ n.lines))
    ∧ (|d.price - p.monitoring.lastPrice| < p.monitoring.priceThreshold →
        (d.stock.getD .in_stock = p.monitoring.lastStock
          ∨ p.monitoring.stockAlert = false) →
        (handleProductUpdate st id d now).notifications = st.notifications
        ∧ (∀ p2, mget (handleProductUpdate st id d now).monitoringProducts id = some p2 →
            p2.history.price.getLast? = some ⟨d.price, now⟩)) := by
  have h1 := applyUpdate_price_changed p d now hdiff
  have h3 := applyUpdate_preserved p d now
  have hch : ((applyUpdate p d now).2.price || (applyUpdate p d now).2.stock) = true := by
    rw [h1.1]; rfl
  have hnotif := handleProductUpdate_notifications st id d now p hp hch
  constructor
  · intro hthr
    have hone : ∃ tail, sendNotification (applyUpdate p d now).1 (applyUpdate p d now).2
        = some ⟨p.base.id, NotifLine.priceLine (d.price - p.monitoring.lastPrice) :: tail⟩ := by
      by_cases hs : d.stock.getD .in_stock = p.monitoring.lastStock
      · have h2 := applyUpdate_stock_same p d now hs
        refine ⟨[], ?_⟩
        simp only [sendNotification, composeMessage, h1.1, h1.2.1, h2.1, h3.1,
          h3.2.1, h3.2.2.2, halert, Bool.true_and, Bool.false_and, if_true, if_false]
        rw [if_pos hthr]
        simp
      · have h2 := applyUpdate_stock_changed p d now hs
        cases ha : p.monitoring.stockAlert with
        | true =>
          refine ⟨[NotifLine.stockLine p.monitoring.lastStock (d.stock.getD .in_stock)], ?_⟩
          simp only [sendNotification, composeMessage, h1.1, h1.2.1, h2.1, h2.2.1,
            h3.1, h3.2.1, h3.2.2.1, h3.2.2.2, halert, ha, Bool.true_and, Bool.and_self,
            if_true]
          rw [if_pos hthr]
          simp
        | false =>
          refine ⟨[], ?_⟩
          simp only [sendNotification, composeMessage, h1.1, h1.2.1, h2.1, h2.2.1,
            h3.1, h3.2.1, h3.2.2.1, h3.2.2.2, halert, ha, Bool.true_and, Bool.and_false,
            if_true, if_false]
          rw [if_pos hthr]
          simp
    obtain ⟨tail, hsn⟩ := hone
    rw [hnotif, hsn]
    constructor
    · simp
    · intro n hn
      rw [List.getLast?_concat] at hn
      injection hn with hn
      subst hn
      simp
  · intro hthr hsup
    have hsn : sendNotification (applyUpdate p d now).1 (applyUpdate p d now).2 = none := by
      have hnthr : ¬ (p.monitoring.priceThreshold ≤ |d.price - p.monitoring.lastPrice|) :=
        Int.not_le.mpr hthr
      cases hsup with
      | inl hs =>
        have h2 := applyUpdate_stock_same p d now hs
        simp only [sendNotification, composeMessage, h1.1, h1.2.1, h2.1, h3.1,
          h3.2.1, h3.2.2.2, halert, Bool.true_and, Bool.false_and, if_true, if_false]
        rw [if_neg hnthr]
        simp
      | inr ha =>
        by_cases hs : d.stock.getD .in_stock = p.monitoring.lastStock
        · have h2 := applyUpdate_stock_same p d now hs
          simp only [sendNotification, composeMessage, h1.1, h1.2.1, h2.1, h3.1,
            h3.2.1, h3.2.2.2, halert, Bool.true_and, Bool.false_and, if_true, if_false]
          rw [if_neg hnthr]
          simp
        · have h2 := applyUpdate_stock_changed p d now hs
          simp only [sendNotification, composeMessage, h1.1, h1.2.1, h2.1, h2.2.1,
            h3.1, h3.2.1, h3.2.2.1, h3.2.2.2, halert, ha, Bool.true_and, Bool.and_false,
            if_true, if_false]
          rw [if_neg hnthr]
          simp
    constructor
    · rw [hnotif, hsn]
      simp
    · intro p2 hp2
      have hkey := mget_handleProductUpdate st id d now p hp
      rw [hp2] at hkey
      injection hkey with hkey
      subst hkey
      rw [h1.2.2.1]
      exact cappedAppend_getLast _ _

/-- Witness for C4 at the spec's own scenario: `lastPrice = 10000`, threshold
`500`, new price `10450`, stock unchanged — no notification, history entry
still appended. -/
theorem price_alert_threshold_witness :
    (handleProductUpdate wSt 7 ⟨10450, some .in_stock⟩ 10).notifications
        = wSt.notifications
      ∧ (∀ p2, mget (handleProductUpdate wSt 7 ⟨10450, some .in_stock⟩ 10).monitoringProducts 7
            = some p2 →
          p2.history.price.getLast? = some ⟨10450, 10⟩) :=
  (price_alert_threshold wSt 7 ⟨10450, some .in_stock⟩ 10 wMon
      (by rfl) (by rfl) (by decide)).2 (by decide) (Or.inl (by rfl))

end Sellerboard
